import Mathlib

/-!
Shallow embedding of `date_formal.py` (class `PlotlyVisualizer`) from the
repository `han7i/VNDBGanttChart`, restricted to the core covered by the
specification: source-file selection (`extract_info_from_filename`,
`process_files`) and record extraction (`extract_vn_info`).

Modelling conventions:
* Python strings are Lean `String`s; character-level work is done on
  `List Char` (the scripts only ever meet ASCII data in the claims).
* `datetime.date` values are modelled by the `Date` structure below, and
  `datetime` comparison of parsed `%Y-%m-%d` values is field-lexicographic
  (`dateLT`), exactly as Python compares `datetime` objects at midnight.
* The 14-digit export timestamps are compared by Python as `datetime`
  values; for valid timestamps that order coincides with the numeric order
  of the 14-digit string, so a parsed timestamp is carried as that `Nat`.
  The initial value `datetime(1970, 1, 1)` is the number `19700101000000`.
* Exceptions that Python raises and never catches are `Except.error`
  with the script's message; a caught exception that leads to `continue`
  is `Option.none` ("no record from this entry").
* The pandas timestamp computed for entries without a finish date is kept
  symbolically in `DateVal` (which data the script combined); its numeric
  meaning in fractional days is the denotation `DateVal.toReal`, where
  `math.log(days_diff + 1, 1.27)` is `Real.logb 1.27 (days_diff + 1)`
  (the mathematical value of the float the script computes).
-/

deriving instance DecidableEq for Except

/-- Calendar date `(year, month, day)` as produced by
`datetime.strptime(s, "%Y-%m-%d").date()`. -/
structure Date where
  year : Nat
  month : Nat
  day : Nat
deriving DecidableEq, Repr

/-- Gregorian leap-year rule used by `datetime`. -/
def leapYear (y : Nat) : Bool :=
  y % 4 == 0 && (y % 100 != 0 || y % 400 == 0)

/-- Length of a month, matching `calendar`/`datetime` validity checks. -/
def daysInMonth (y m : Nat) : Nat :=
  if m = 2 then (if leapYear y then 29 else 28)
  else if m = 4 ∨ m = 6 ∨ m = 9 ∨ m = 11 then 30
  else 31

/-- Leap days among the years `1 .. n`. -/
def leapsBefore (n : Nat) : Nat :=
  n / 4 + n / 400 - n / 100

/-- Days in year `y` strictly before month `m`. -/
def daysBeforeMonth (y m : Nat) : Nat :=
  (List.range (m - 1)).foldl (fun a i => a + daysInMonth y (i + 1)) 0

/-- Proleptic-Gregorian day number (day count from 0001-01-01).  The
difference of two `toDays` values is exactly the `.days` of the Python
`timedelta` between the corresponding midnights. -/
def toDays (dt : Date) : Nat :=
  365 * (dt.year - 1) + leapsBefore (dt.year - 1)
    + daysBeforeMonth dt.year dt.month + (dt.day - 1)

/-- Validity enforced by the `datetime` constructor (via `strptime`). -/
def validDate (y m d : Nat) : Bool :=
  decide (1 ≤ y) && decide (1 ≤ m) && decide (m ≤ 12)
    && decide (1 ≤ d) && decide (d ≤ daysInMonth y m)

/-- `datetime.__lt__` on two parsed `%Y-%m-%d` values: lexicographic on
`(year, month, day)` (both sides are at midnight). -/
def dateLT (a b : Date) : Bool :=
  if a.year ≠ b.year then decide (a.year < b.year)
  else if a.month ≠ b.month then decide (a.month < b.month)
  else decide (a.day < b.day)

/-- Numeric value of a decimal digit character. -/
def digitVal (c : Char) : Nat := c.toNat - '0'.toNat

/-- Value of a digit string. -/
def digitsToNat (cs : List Char) : Nat :=
  cs.foldl (fun a c => 10 * a + digitVal c) 0

/-- All characters are ASCII digits (`\d` on the data in scope). -/
def allDigits (cs : List Char) : Bool := cs.all (·.isDigit)

/-- Split a character list at every `'-'`. -/
def splitDash : List Char → List (List Char)
  | [] => [[]]
  | '-' :: rest => [] :: splitDash rest
  | c :: rest =>
    match splitDash rest with
    | [] => [[c]]
    | g :: gs => (c :: g) :: gs

/-- `datetime.strptime(s, "%Y-%m-%d")`: `%Y` is exactly four digits, `%m`
and `%d` are one or two digits whose lexical alternatives amount to the
value ranges `1..12` and `1..31`, the whole string must be consumed, and
the `datetime` constructor then checks the day against the month length. -/
def parseDate (s : String) : Option Date :=
  match splitDash s.toList with
  | [ys, ms, ds] =>
    if ys.length = 4 ∧ allDigits ys = true
        ∧ 1 ≤ ms.length ∧ ms.length ≤ 2 ∧ allDigits ms = true
        ∧ 1 ≤ ds.length ∧ ds.length ≤ 2 ∧ allDigits ds = true then
      let y := digitsToNat ys
      let m := digitsToNat ms
      let d := digitsToNat ds
      if validDate y m d then some ⟨y, m, d⟩ else none
    else none
  | _ => none

/-- Word character of the regex `\w` (ASCII range, which is all the data
in scope meets). -/
def isWordChar (c : Char) : Bool := c.isAlphanum || c == '_'

/-- `filename.endswith('.xml')`. -/
def endsWithXml (f : String) : Bool :=
  f.toList.reverse.take 4 == ['l', 'm', 'x', '.']

/-- Strip a literal prefix from a character list. -/
def stripPrefixChars : List Char → List Char → Option (List Char)
  | [], cs => some cs
  | _ :: _, [] => none
  | p :: ps, c :: cs => if c = p then stripPrefixChars ps cs else none

/-- `re.match(r'vndb-list-export-(\w+)-(\d{14}).xml', filename)`:
anchored at the start only; `(\w+)` is necessarily the maximal word-run
after the literal prefix (a shorter run would be followed by a word
character, not `'-'`); then come exactly fourteen digits, one arbitrary
character (the unescaped `.`), and the literal `xml`; any tail is
ignored.  Returns `(owner, timestamp-digits)` on success. -/
def matchExportName (filename : String) : Option (String × List Char) :=
  match stripPrefixChars "vndb-list-export-".toList filename.toList with
  | none => none
  | some rest =>
    let w := rest.takeWhile isWordChar
    let r2 := rest.dropWhile isWordChar
    if w = [] then none
    else
      match r2 with
      | '-' :: r3 =>
        let ds := r3.take 14
        if ds.length = 14 ∧ allDigits ds = true then
          match r3.drop 14 with
          | _ :: 'x' :: 'm' :: 'l' :: _ => some (String.mk w, ds)
          | _ => none
        else none
      | _ => none

/-- `datetime.strptime(ds, '%Y%m%d%H%M%S')` on a 14-digit string: the
only way the six patterns consume all fourteen digits is the widths
`4+2+2+2+2+2`, and the `datetime` constructor then enforces the calendar
bounds.  The result is carried as the numeric value of the digit string,
which for valid stamps is order-isomorphic to the `datetime` order. -/
def parseTimestamp (ds : List Char) : Option Nat :=
  let y := digitsToNat (ds.take 4)
  let mo := digitsToNat ((ds.drop 4).take 2)
  let d := digitsToNat ((ds.drop 6).take 2)
  let h := digitsToNat ((ds.drop 8).take 2)
  let mi := digitsToNat ((ds.drop 10).take 2)
  let s := digitsToNat ((ds.drop 12).take 2)
  if validDate y mo d = true ∧ h ≤ 23 ∧ mi ≤ 59 ∧ s ≤ 59 then
    some (digitsToNat ds)
  else none

/-- `PlotlyVisualizer.extract_info_from_filename`: pattern mismatch and
an invalid timestamp both raise `ValueError` (neither is caught by any
caller in the script). -/
def extract_info_from_filename (filename : String) : Except String (String × Nat) :=
  match matchExportName filename with
  | none => .error ("xml文件名格式不匹配: " ++ filename)
  | some (u, ds) =>
    match parseTimestamp ds with
    | none => .error ("time data does not match format: " ++ String.mk ds)
    | some t => .ok (u, t)

/-- Owner parsed from a filename (junk value on files the pattern rejects;
only ever used about files it accepts). -/
def fileOwner (f : String) : String :=
  match extract_info_from_filename f with
  | .ok p => p.1
  | .error _ => ""

/-- Timestamp parsed from a filename (junk value on rejected files). -/
def fileTime (f : String) : Nat :=
  match extract_info_from_filename f with
  | .ok p => p.2
  | .error _ => 0

/-- `usernames.add u` on the set modelled as a duplicate-free list. -/
def insertUser (users : List String) (u : String) : List String :=
  if users.contains u then users else users ++ [u]

/-- The `for filename in file_list` loop of `process_files`, carrying
`latest_file`, `latest_export_time` and `usernames`. -/
def processFilesLoop :
    List String → Option String → Nat → List String →
    Except String (Option String × List String)
  | [], latest, _, users => .ok (latest, users)
  | f :: rest, latest, latestT, users =>
    if endsWithXml f then
      match extract_info_from_filename f with
      | .error msg => .error msg
      | .ok (u, t) =>
        if latestT < t then
          processFilesLoop rest (some f) t (insertUser users u)
        else
          processFilesLoop rest latest latestT (insertUser users u)
    else
      processFilesLoop rest latest latestT users

/-- `PlotlyVisualizer.process_files`, with the directory listing passed
in as the list of filenames.  Matches the script's order of checks: the
loop (whose `ValueError`s abort the whole call), then the
`latest_file is None` check, then the multiple-owners check. -/
def process_files (fileList : List String) : Except String String :=
  match processFilesLoop fileList none 19700101000000 [] with
  | .error msg => .error msg
  | .ok (none, _) => .error "没有找到匹配的xml文件"
  | .ok (some f, users) =>
    if users.length > 1 then .error "存在多个用户" else .ok f

/-- One `<vn>` element, as the script probes it:
`started`/`finished` are `none` when the child element is absent and
`some t` when present with text `t` (`t = none` for an empty element,
where `.text` is `None`); `title` is `none` when the child is absent and
otherwise carries `(original-attribute, text)`; `label` is `none` when
the child is absent and otherwise carries the `label` attribute. -/
structure VNEntry where
  started : Option (Option String)
  title : Option (Option String × Option String)
  label : Option (Option String)
  finished : Option (Option String)
deriving DecidableEq, Repr

/-- The `finished` value the script stores in the result dict: either the
verbatim `.text` of a present `<finished>` element, or the pandas
timestamp derived for a stalled entry (kept as the start date and the
integer `days_diff` that determine it), or today's midnight timestamp. -/
inductive DateVal where
  | rawText : Option String → DateVal
  | stalledPoint : Date → Int → DateVal
  | todayPoint : Date → DateVal
deriving DecidableEq, Repr

/-- Numeric meaning of a derived `DateVal`, in fractional days on the
`toDays` axis: `stalledPoint sd dd` is
`pd.to_datetime(started) + pd.DateOffset(days=math.log(dd + 1, 1.27))`
and `todayPoint t` is `pd.to_datetime(datetime.today().date())`.
A verbatim string has no numeric meaning at this stage. -/
noncomputable def DateVal.toReal : DateVal → Option ℝ
  | .rawText _ => none
  | .stalledPoint sd dd => some ((toDays sd : ℝ) + Real.logb 1.27 ((dd : ℝ) + 1))
  | .todayPoint t => some ((toDays t : ℝ))

/-- One result dict appended by `extract_vn_info`. -/
structure SpanRecord where
  title : Option String
  started : String
  finished : DateVal
  label : Option String
deriving DecidableEq, Repr

/-- Title resolution: `vn.find('title').get('original')`, falling back to
`vn.find('title').text` when the attribute is absent. -/
def resolveTitle : Option String × Option String → Option String
  | (some t, _) => some t
  | (none, txt) => txt

/-- Label resolution: `vn.find('label').get('label')` with the
`AttributeError` of an absent `<label>` element caught and replaced by
`"Finished"`.  A present element without the attribute yields `none`. -/
def resolveLabel (e : VNEntry) : Option String :=
  match e.label with
  | none => some "Finished"
  | some attr => attr

/-- Processing of one `<vn>` element by `extract_vn_info`, with the
cutoff string `self.time_range` and the injected current date.
`ok none` is `continue` (entry skipped), `error` is an uncaught
exception (aborting the whole call): an absent `<title>` element makes
line 65 raise `AttributeError`, and a non-positive `days_diff + 1` makes
`math.log` raise `ValueError` inside the `except` block. -/
def processEntry (timeRange : String) (today : Date) (e : VNEntry) :
    Except String (Option SpanRecord) :=
  match e.started with
  | none => .ok none
  | some none => .ok none
  | some (some s) =>
    match parseDate s, parseDate timeRange with
    | some sd, some cd =>
      if dateLT sd cd then .ok none
      else
        match e.title with
        | none => .error "AttributeError: NoneType object has no attribute get"
        | some tp =>
          let title := resolveTitle tp
          let label := resolveLabel e
          match e.finished with
          | some ftxt => .ok (some ⟨title, s, .rawText ftxt, label⟩)
          | none =>
            if label = some "Stalled" then
              let dd : Int := (toDays today : Int) - (toDays sd : Int)
              if dd + 1 ≤ 0 then .error "math domain error"
              else .ok (some ⟨title, s, .stalledPoint sd dd, label⟩)
            else .ok (some ⟨title, s, .todayPoint today, label⟩)
    | _, _ => .ok none

/-- `PlotlyVisualizer.extract_vn_info` over the already-parsed entry
list, appending the records in document order; an uncaught exception at
any entry aborts the whole call. -/
def extract_vn_info (timeRange : String) (today : Date) :
    List VNEntry → Except String (List SpanRecord)
  | [] => .ok []
  | e :: rest =>
    match processEntry timeRange today e with
    | .error msg => .error msg
    | .ok none => extract_vn_info timeRange today rest
    | .ok (some r) =>
      match extract_vn_info timeRange today rest with
      | .error msg => .error msg
      | .ok rs => .ok (r :: rs)

/-- Pure shadow of the `latest_file`/`latest_export_time` state of the
`process_files` loop, on a listing where every name is accepted. -/
def loopLatest : List String → Option String → Nat → Option String × Nat
  | [], latest, latestT => (latest, latestT)
  | f :: rest, latest, latestT =>
    if latestT < fileTime f then loopLatest rest (some f) (fileTime f)
    else loopLatest rest latest latestT

/-- Pure shadow of the `usernames` accumulation of the loop. -/
def loopUsers : List String → List String → List String
  | [], users => users
  | f :: rest, users => loopUsers rest (insertUser users (fileOwner f))

/-- On a listing of accepted `.xml` names the loop never raises, and its
state is computed by the two pure shadows. -/
theorem processFilesLoop_eq (fl : List String)
    (hall : ∀ f ∈ fl, endsWithXml f = true ∧
      extract_info_from_filename f = .ok (fileOwner f, fileTime f)) :
    ∀ latest latestT users,
      processFilesLoop fl latest latestT users =
        .ok ((loopLatest fl latest latestT).1, loopUsers fl users) := by
  induction fl with
  | nil => intro latest latestT users; rfl
  | cons f rest ih =>
    intro latest latestT users
    obtain ⟨h1, h2⟩ := hall f (List.mem_cons_self f rest)
    have hrest := fun g hg => hall g (List.mem_cons_of_mem f hg)
    by_cases hlt : latestT < fileTime f
    · simp only [processFilesLoop, loopLatest, loopUsers, h1, h2, if_true, hlt, if_pos]
      exact ih hrest (some f) (fileTime f) (insertUser users (fileOwner f))
    · simp only [processFilesLoop, loopLatest, loopUsers, h1, h2, if_true, hlt, if_neg,
        if_false]
      exact ih hrest latest latestT (insertUser users (fileOwner f))

theorem mem_insertUser {users : List String} {u x : String} :
    x ∈ insertUser users u ↔ x ∈ users ∨ x = u := by
  by_cases h : u ∈ users
  · simp only [insertUser]
    rw [if_pos (by simp [h])]
    exact ⟨Or.inl, fun hx => hx.elim id (fun he => he ▸ h)⟩
  · simp only [insertUser]
    rw [if_neg (by simp [h])]
    simp

theorem nodup_insertUser {users : List String} {u : String} (h : users.Nodup) :
    (insertUser users u).Nodup := by
  by_cases hm : u ∈ users
  · have hc : users.contains u = true := by simp [hm]
    simpa only [insertUser, hc, if_true] using h
  · have hc : users.contains u = false := by simp [hm]
    simp only [insertUser, hc, if_false, Bool.false_eq_true]
    simp [List.nodup_append, h, hm]

theorem mem_loopUsers : ∀ (fl : List String) (users : List String) (x : String),
    x ∈ loopUsers fl users ↔ x ∈ users ∨ ∃ f ∈ fl, fileOwner f = x
  | [], users, x => by simp [loopUsers]
  | f :: rest, users, x => by
    rw [loopUsers, mem_loopUsers rest]
    rw [mem_insertUser]
    constructor
    · rintro ((hu | rfl) | ⟨g, hg, rfl⟩)
      · exact Or.inl hu
      · exact Or.inr ⟨f, List.mem_cons_self f rest, rfl⟩
      · exact Or.inr ⟨g, List.mem_cons_of_mem f hg, rfl⟩
    · rintro (hu | ⟨g, hg, rfl⟩)
      · exact Or.inl (Or.inl hu)
      · rcases List.mem_cons.mp hg with rfl | hg2
        · exact Or.inl (Or.inr rfl)
        · exact Or.inr ⟨g, hg2, rfl⟩

theorem nodup_loopUsers : ∀ (fl : List String) (users : List String),
    users.Nodup → (loopUsers fl users).Nodup
  | [], _, h => h
  | _ :: rest, _, h => nodup_loopUsers rest _ (nodup_insertUser h)

theorem length_le_one_of_all_eq : ∀ (l : List String) (u : String),
    l.Nodup → (∀ x ∈ l, x = u) → l.length ≤ 1
  | [], _, _, _ => by simp
  | [_], _, _, _ => by simp
  | a :: b :: t, u, hn, hall => by
    exfalso
    have ha : a = u := hall a (by simp)
    have hb : b = u := hall b (by simp)
    have : a ∉ b :: t := (List.nodup_cons.mp hn).1
    exact this (ha ▸ hb ▸ List.mem_cons_self b t)

theorem one_lt_length_of_mem_ne {l : List String} {x y : String}
    (hx : x ∈ l) (hy : y ∈ l) (hxy : x ≠ y) : 1 < l.length := by
  match l with
  | [] => exact absurd hx (List.not_mem_nil x)
  | [a] =>
    rw [List.mem_singleton] at hx hy
    exact absurd (hx.trans hy.symm) hxy
  | a :: b :: t => simp only [List.length_cons]; omega

theorem exists_max_fileTime : ∀ (fl : List String), fl ≠ [] →
    ∃ g ∈ fl, ∀ f ∈ fl, fileTime f ≤ fileTime g
  | [], h => absurd rfl h
  | [a], _ => ⟨a, by simp⟩
  | a :: b :: t, _ => by
    obtain ⟨g, hg, hmax⟩ := exists_max_fileTime (b :: t) (by simp)
    by_cases hab : fileTime a ≤ fileTime g
    · exact ⟨g, List.mem_cons_of_mem a hg, by
        intro f hf
        rcases List.mem_cons.mp hf with rfl | hf2
        · exact hab
        · exact hmax f hf2⟩
    · refine ⟨a, List.mem_cons_self a (b :: t), ?_⟩
      intro f hf
      rcases List.mem_cons.mp hf with rfl | hf2
      · exact le_refl _
      · exact le_trans (hmax f hf2) (le_of_not_le hab)

/-- Behaviour of the `latest_file` state: if nothing beats the running
maximum it is unchanged, and if the listing attains a maximum `M` above
the running value then the first file stamped `M` is selected. -/
theorem loopLatest_spec : ∀ (fl : List String) (latest : Option String) (latestT : Nat),
    ((∀ f ∈ fl, fileTime f ≤ latestT) → loopLatest fl latest latestT = (latest, latestT)) ∧
    (∀ M, (∀ f ∈ fl, fileTime f ≤ M) → latestT < M → (∃ f ∈ fl, fileTime f = M) →
      loopLatest fl latest latestT = (List.find? (fun f => fileTime f == M) fl, M))
  | [], latest, latestT => by
    constructor
    · intro _; rfl
    · rintro M _ _ ⟨f, hf, _⟩
      exact absurd hf (List.not_mem_nil f)
  | f :: rest, latest, latestT => by
    constructor
    · intro hall
      have hf := hall f (List.mem_cons_self f rest)
      rw [loopLatest, if_neg (not_lt.mpr hf)]
      exact (loopLatest_spec rest latest latestT).1
        (fun g hg => hall g (List.mem_cons_of_mem f hg))
    · rintro M hle hlt ⟨w, hw, hwM⟩
      have hrle : ∀ g ∈ rest, fileTime g ≤ M :=
        fun g hg => hle g (List.mem_cons_of_mem f hg)
      by_cases hM : fileTime f = M
      · subst hM
        rw [loopLatest, if_pos hlt]
        rw [List.find?_cons_of_pos _ (by simp)]
        exact (loopLatest_spec rest (some f) (fileTime f)).1 hrle
      · have hflt : fileTime f < M :=
          lt_of_le_of_ne (hle f (List.mem_cons_self f rest)) hM
        have hwrest : w ∈ rest := by
          rcases List.mem_cons.mp hw with rfl | h2
          · exact absurd hwM hM
          · exact h2
        rw [List.find?_cons_of_neg _ (by simp [hM])]
        by_cases hlf : latestT < fileTime f
        · rw [loopLatest, if_pos hlf]
          exact (loopLatest_spec rest (some f) (fileTime f)).2 M hrle hflt ⟨w, hwrest, hwM⟩
        · rw [loopLatest, if_neg hlf]
          exact (loopLatest_spec rest latest latestT).2 M hrle hlt ⟨w, hwrest, hwM⟩

/-- On an all-accepted listing whose loop leaves `latest_file = None`,
`process_files` raises the no-matching-file error. -/
theorem process_files_none (fl : List String)
    (hall : ∀ f ∈ fl, endsWithXml f = true ∧
      extract_info_from_filename f = .ok (fileOwner f, fileTime f))
    (h : (loopLatest fl none 19700101000000).1 = none) :
    process_files fl = .error "没有找到匹配的xml文件" := by
  rw [process_files, processFilesLoop_eq fl hall, h]

/-- On an all-accepted listing whose loop selects a file, `process_files`
returns it unless several owners were seen. -/
theorem process_files_some (fl : List String)
    (hall : ∀ f ∈ fl, endsWithXml f = true ∧
      extract_info_from_filename f = .ok (fileOwner f, fileTime f))
    (g : String) (h : (loopLatest fl none 19700101000000).1 = some g) :
    process_files fl =
      if (loopUsers fl []).length > 1 then .error "存在多个用户" else .ok g := by
  rw [process_files, processFilesLoop_eq fl hall, h]

/-- On a single-owner listing the accumulated owner set has at most one
element. -/
theorem loopUsers_le_one (fl : List String)
    (hone : ∀ f ∈ fl, ∀ g ∈ fl, fileOwner f = fileOwner g)
    (g0 : String) (hg0 : g0 ∈ fl) : (loopUsers fl []).length ≤ 1 := by
  apply length_le_one_of_all_eq _ (fileOwner g0) (nodup_loopUsers fl [] List.nodup_nil)
  intro x hx
  rcases (mem_loopUsers fl [] x).mp hx with hx2 | ⟨f, hf, rfl⟩
  · exact absurd hx2 (List.not_mem_nil x)
  · exact hone f hf g0 hg0

/-- `math.log(93, 1.27)`, the line length at the spec's example input, is
between 18.9 and 19 (so close to 18.96, not 18.56). -/
theorem logb93_bounds : (18.9:ℝ) < Real.logb 1.27 93 ∧ Real.logb 1.27 93 < 19 := by
  have hb : (1:ℝ) < 1.27 := by norm_num
  have hx : (0:ℝ) < 93 := by norm_num
  constructor
  · rw [Real.lt_logb_iff_rpow_lt hb hx]
    have heq : ((1.27:ℝ) ^ ((18.9:ℝ))) ^ (10:ℕ) = (1.27:ℝ) ^ (189:ℕ) := by
      rw [← Real.rpow_natCast ((1.27:ℝ) ^ ((18.9:ℝ))) 10,
        ← Real.rpow_mul (by norm_num : (0:ℝ) ≤ 1.27), ← Real.rpow_natCast (1.27:ℝ) 189]
      norm_num
    have key : ((1.27:ℝ) ^ ((18.9:ℝ))) ^ (10:ℕ) < (93:ℝ) ^ (10:ℕ) := by
      rw [heq]; norm_num
    exact lt_of_pow_lt_pow_left₀ 10 (by norm_num) key
  · rw [Real.logb_lt_iff_lt_rpow hb hx]
    rw [show ((19:ℝ)) = ((19:ℕ):ℝ) by norm_num, Real.rpow_natCast]
    norm_num

/-- C1, counterexample: at the spec's own example input (started
2021-05-01, label "Stalled", no finished element, today 2021-08-01) the
code does set `days_diff = 92` and `line_length = log 93 / log 1.27`, but
that value exceeds 18.9, so it is not ≈ 18.56 as the claim states (it is
≈ 18.96). -/
theorem c1_counterexample :
    processEntry "2020-01-01" ⟨2021, 8, 1⟩
      ⟨some (some "2021-05-01"), some (some "Title", none), some (some "Stalled"), none⟩
      = .ok (some ⟨some "Title", "2021-05-01",
          .stalledPoint ⟨2021, 5, 1⟩ 92, some "Stalled"⟩)
    ∧ DateVal.toReal (.stalledPoint ⟨2021, 5, 1⟩ 92)
      = some ((toDays ⟨2021, 5, 1⟩ : ℝ) + Real.logb 1.27 93)
    ∧ (18.9:ℝ) < Real.logb 1.27 93
    ∧ ¬ |Real.logb 1.27 93 - 18.56| ≤ (1/3 : ℝ) := by
  refine ⟨by decide, ?_, logb93_bounds.1, ?_⟩
  · simp only [DateVal.toReal, Option.some.injEq]
    norm_num
  · intro habs
    rw [abs_le] at habs
    have := logb93_bounds.1
    linarith [habs.2]

/-- C1, amended: for every entry passing the start gate whose resolved
label is "Stalled", whose finished element is absent, and whose start
date is not after today, the extractor sets `days_diff` to the whole
days from started to today and emits
`finished = started + log_{1.27}(days_diff + 1)` days; at the spec's
example input `days_diff = 92` and the line length is
`log 93 / log 1.27 ≈ 18.96` (between 18.9 and 19), not 18.56. -/
theorem c1_amended :
    (∀ (timeRange : String) (cd today : Date) (e : VNEntry) (s : String) (sd : Date)
      (tp : Option String × Option String),
      e.started = some (some s) → parseDate s = some sd →
      parseDate timeRange = some cd → dateLT sd cd = false →
      e.title = some tp → resolveLabel e = some "Stalled" → e.finished = none →
      toDays sd ≤ toDays today →
      processEntry timeRange today e =
        .ok (some ⟨resolveTitle tp, s,
          .stalledPoint sd ((toDays today : ℤ) - (toDays sd : ℤ)), some "Stalled"⟩) ∧
      DateVal.toReal (.stalledPoint sd ((toDays today : ℤ) - (toDays sd : ℤ)))
        = some ((toDays sd : ℝ)
            + Real.logb 1.27 ((((toDays today : ℤ) - (toDays sd : ℤ)) : ℝ) + 1)))
    ∧ (toDays ⟨2021, 8, 1⟩ : ℤ) - (toDays ⟨2021, 5, 1⟩ : ℤ) = 92
    ∧ (18.9:ℝ) < Real.logb 1.27 93 ∧ Real.logb 1.27 93 < 19 := by
  refine ⟨?_, by decide, logb93_bounds.1, logb93_bounds.2⟩
  intro timeRange cd today e s sd tp hs hps hct hgate ht hlab hfin hle
  constructor
  · simp only [processEntry, hs, hps, hct, hgate, Bool.false_eq_true, if_false, ht, hlab,
      hfin]
    rw [if_pos trivial, if_neg (by omega)]
  · simp only [DateVal.toReal, Option.some.injEq]
    push_cast
    ring_nf

/-- C1, witness: the amended statement applied at the spec's example
input. -/
theorem c1_amended_witness :
    processEntry "2020-01-01" ⟨2021, 8, 1⟩
      ⟨some (some "2021-05-01"), some (some "Title", none), some (some "Stalled"), none⟩ =
      .ok (some ⟨resolveTitle (some "Title", none), "2021-05-01",
        .stalledPoint ⟨2021, 5, 1⟩ ((toDays ⟨2021, 8, 1⟩ : ℤ) - (toDays ⟨2021, 5, 1⟩ : ℤ)),
        some "Stalled"⟩) ∧
    DateVal.toReal (.stalledPoint ⟨2021, 5, 1⟩
        ((toDays ⟨2021, 8, 1⟩ : ℤ) - (toDays ⟨2021, 5, 1⟩ : ℤ)))
      = some ((toDays ⟨2021, 5, 1⟩ : ℝ)
          + Real.logb 1.27 ((((toDays ⟨2021, 8, 1⟩ : ℤ) - (toDays ⟨2021, 5, 1⟩ : ℤ)) : ℝ) + 1)) :=
  c1_amended.1 "2020-01-01" ⟨2020, 1, 1⟩ ⟨2021, 8, 1⟩
    ⟨some (some "2021-05-01"), some (some "Title", none), some (some "Stalled"), none⟩
    "2021-05-01" ⟨2021, 5, 1⟩ (some "Title", none)
    rfl (by decide) (by decide) (by decide) rfl rfl rfl (by decide)

/-- C2: the extractor does not guarantee non-null fields.  An entry whose
`<title>` element is present but empty (no `original` attribute, no
text) and whose `<finished>` element is present but empty passes the
start gate and is emitted with a null title and a null finished value,
contradicting the claimed invariant. -/
theorem c2_code_bug :
    extract_vn_info "2020-01-01" ⟨2021, 8, 1⟩
      [⟨some (some "2021-01-01"), some (none, none), none, some none⟩]
      = .ok [⟨none, "2021-01-01", .rawText none, some "Finished"⟩] := by decide

/-- C3: an entry whose start date is absent (element missing or empty),
unparsable, or strictly before the cutoff produces no record, and
extraction of the remaining entries continues unchanged. -/
theorem c3_start_gate (timeRange : String) (cd : Date)
    (hct : parseDate timeRange = some cd) (today : Date) (e : VNEntry)
    (h : e.started = none ∨ e.started = some none ∨
      (∃ s, e.started = some (some s) ∧ parseDate s = none) ∨
      (∃ s sd, e.started = some (some s) ∧ parseDate s = some sd ∧ dateLT sd cd = true)) :
    processEntry timeRange today e = .ok none ∧
    ∀ rest, extract_vn_info timeRange today (e :: rest)
      = extract_vn_info timeRange today rest := by
  have hskip : processEntry timeRange today e = .ok none := by
    rcases h with h1 | h1 | ⟨s, h1, h2⟩ | ⟨s, sd, h1, h2, h3⟩
    · simp [processEntry, h1]
    · simp [processEntry, h1]
    · simp [processEntry, h1, h2]
    · simp [processEntry, h1, h2, hct, h3]
  exact ⟨hskip, fun rest => by simp [extract_vn_info, hskip]⟩

/-- C3, witness: a concrete entry with no `<started>` element is skipped
and the rest of the list is processed as if it were absent. -/
theorem c3_witness :
    processEntry "2020-01-01" ⟨2021, 8, 1⟩ ⟨none, none, none, none⟩ = .ok none ∧
    extract_vn_info "2020-01-01" ⟨2021, 8, 1⟩
        [⟨none, none, none, none⟩,
         ⟨some (some "2021-01-01"), some (some "T", none), none, some (some "2021-02-01")⟩]
      = extract_vn_info "2020-01-01" ⟨2021, 8, 1⟩
        [⟨some (some "2021-01-01"), some (some "T", none), none, some (some "2021-02-01")⟩] :=
  ⟨(c3_start_gate "2020-01-01" ⟨2020, 1, 1⟩ (by decide) ⟨2021, 8, 1⟩
      ⟨none, none, none, none⟩ (Or.inl rfl)).1,
   (c3_start_gate "2020-01-01" ⟨2020, 1, 1⟩ (by decide) ⟨2021, 8, 1⟩
      ⟨none, none, none, none⟩ (Or.inl rfl)).2
     [⟨some (some "2021-01-01"), some (some "T", none), none, some (some "2021-02-01")⟩]⟩

/-- C4, counterexample: a directory holding the malformed name `bad.xml`
next to a well-formed candidate makes `process_files` raise the
filename-mismatch `ValueError`, so the malformed file is fatal to the
whole run, not just to that file. -/
theorem c4_counterexample :
    process_files ["bad.xml", "vndb-list-export-A-20230101000000.xml"]
      = .error "xml文件名格式不匹配: bad.xml" := by decide

/-- C4, amended: only filenames not ending in `.xml` are silently
excluded (selection proceeds exactly as if they were absent); a
filename that ends in `.xml` but fails the pattern aborts the whole
run.  A directory with a non-`.xml` stray file still returns the
matching candidate. -/
theorem c4_amended :
    (∀ (l1 l2 : List String) (f : String), endsWithXml f = false →
      process_files (l1 ++ f :: l2) = process_files (l1 ++ l2)) ∧
    process_files ["notxml.txt", "vndb-list-export-A-20230101000000.xml"]
      = .ok "vndb-list-export-A-20230101000000.xml" := by
  constructor
  · have hloop : ∀ (l1 : List String) (f : String), endsWithXml f = false →
        ∀ (l2 : List String) latest latestT users,
          processFilesLoop (l1 ++ f :: l2) latest latestT users
            = processFilesLoop (l1 ++ l2) latest latestT users := by
      intro l1
      induction l1 with
      | nil =>
        intro f hf l2 latest latestT users
        simp only [List.nil_append, processFilesLoop, hf, Bool.false_eq_true, if_false]
      | cons g l1' ih =>
        intro f hf l2 latest latestT users
        simp only [List.cons_append, processFilesLoop, List.append_eq, ih f hf]
    intro l1 l2 f hf
    rw [process_files, process_files, hloop l1 f hf l2]
  · decide

/-- C4, witness: the amended skip property at a concrete listing. -/
theorem c4_amended_witness :
    process_files ["notxml.txt", "vndb-list-export-A-20230101000000.xml"]
      = process_files ["vndb-list-export-A-20230101000000.xml"] :=
  c4_amended.1 [] ["vndb-list-export-A-20230101000000.xml"] "notxml.txt" (by decide)

/-- If some file is stamped after the loop's initial
`datetime(1970, 1, 1)`, the loop selects a file of maximal timestamp. -/
theorem loopLatest_max (fl : List String)
    (hepoch : ∃ f ∈ fl, 19700101000000 < fileTime f) :
    ∃ g ∈ fl, (loopLatest fl none 19700101000000).1 = some g ∧
      ∀ f ∈ fl, fileTime f ≤ fileTime g := by
  obtain ⟨f0, hf0, hf0t⟩ := hepoch
  have hne : fl ≠ [] := by rintro rfl; exact absurd hf0 (List.not_mem_nil f0)
  obtain ⟨gmax, hgmax, hmax⟩ := exists_max_fileTime fl hne
  have hMgt : 19700101000000 < fileTime gmax := lt_of_lt_of_le hf0t (hmax f0 hf0)
  have hlat := (loopLatest_spec fl none 19700101000000).2
    (fileTime gmax) hmax hMgt ⟨gmax, hgmax, rfl⟩
  have hsome : (List.find? (fun f => fileTime f == fileTime gmax) fl).isSome := by
    rw [List.find?_isSome]
    exact ⟨gmax, hgmax, by simp⟩
  obtain ⟨g, hg⟩ := Option.isSome_iff_exists.mp hsome
  have hgmem : g ∈ fl := List.mem_of_find?_eq_some hg
  have hgtime : fileTime g = fileTime gmax := by
    have := List.find?_some hg
    simpa using this
  refine ⟨g, hgmem, ?_, fun f hf => hgtime ▸ hmax f hf⟩
  rw [hlat]
  exact hg

/-- C5, counterexample: a single matching candidate stamped exactly
`19700101000000` (the loop's initial value, compared strictly) is never
selected, and `select` raises the no-matching-file error instead of
returning the maximum. -/
theorem c5_counterexample :
    endsWithXml "vndb-list-export-A-19700101000000.xml" = true ∧
    extract_info_from_filename "vndb-list-export-A-19700101000000.xml"
      = .ok ("A", 19700101000000) ∧
    process_files ["vndb-list-export-A-19700101000000.xml"]
      = .error "没有找到匹配的xml文件" := by decide

/-- C5, amended: for every non-empty single-owner set of matching
candidates at least one of which is stamped strictly after
1970-01-01 00:00:00, `select` returns a file of maximal export
timestamp; in particular with owners [A, A] and timestamps
20230101000000 and 20240101000000 it returns the latter. -/
theorem c5_amended :
    (∀ fl : List String,
      (∀ f ∈ fl, endsWithXml f = true ∧
        extract_info_from_filename f = .ok (fileOwner f, fileTime f)) →
      (∀ f ∈ fl, ∀ g ∈ fl, fileOwner f = fileOwner g) →
      (∃ f ∈ fl, 19700101000000 < fileTime f) →
      ∃ g ∈ fl, process_files fl = .ok g ∧ ∀ f ∈ fl, fileTime f ≤ fileTime g) ∧
    process_files ["vndb-list-export-A-20230101000000.xml",
      "vndb-list-export-A-20240101000000.xml"]
      = .ok "vndb-list-export-A-20240101000000.xml" := by
  constructor
  · intro fl hall hone hepoch
    obtain ⟨g, hgmem, hlat1, hmax⟩ := loopLatest_max fl hepoch
    refine ⟨g, hgmem, ?_, hmax⟩
    rw [process_files_some fl hall g hlat1]
    rw [if_neg (by have := loopUsers_le_one fl hone g hgmem; omega)]
  · decide

/-- C5, witness: the amended statement applied to the spec's concrete
pair of candidates. -/
theorem c5_amended_witness :
    ∃ g ∈ (["vndb-list-export-A-20230101000000.xml",
        "vndb-list-export-A-20240101000000.xml"] : List String),
      process_files ["vndb-list-export-A-20230101000000.xml",
        "vndb-list-export-A-20240101000000.xml"] = .ok g ∧
      ∀ f ∈ (["vndb-list-export-A-20230101000000.xml",
        "vndb-list-export-A-20240101000000.xml"] : List String),
        fileTime f ≤ fileTime g :=
  c5_amended.1 ["vndb-list-export-A-20230101000000.xml",
    "vndb-list-export-A-20240101000000.xml"] (by decide) (by decide) (by decide)

/-- C6: an explicit finished value is emitted verbatim whatever the
label, and a missing finished value with a resolved label other than
"Stalled" is replaced by today's calendar date. -/
theorem c6_finished_resolution (timeRange : String) (cd today : Date) (e : VNEntry)
    (s : String) (sd : Date) (tp : Option String × Option String)
    (hs : e.started = some (some s)) (hps : parseDate s = some sd)
    (hct : parseDate timeRange = some cd) (hgate : dateLT sd cd = false)
    (ht : e.title = some tp) :
    (∀ ftxt, e.finished = some ftxt →
      processEntry timeRange today e =
        .ok (some ⟨resolveTitle tp, s, .rawText ftxt, resolveLabel e⟩)) ∧
    (e.finished = none → resolveLabel e ≠ some "Stalled" →
      processEntry timeRange today e =
        .ok (some ⟨resolveTitle tp, s, .todayPoint today, resolveLabel e⟩) ∧
      DateVal.toReal (DateVal.todayPoint today) = some ((toDays today : ℝ))) := by
  constructor
  · intro ftxt hfin
    simp only [processEntry, hs, hps, hct, hgate, Bool.false_eq_true, if_false, ht, hfin]
  · intro hfin hnst
    refine ⟨?_, rfl⟩
    simp only [processEntry, hs, hps, hct, hgate, Bool.false_eq_true, if_false, ht, hfin]
    rw [if_neg hnst]

/-- C6, witness: an explicit `finished = 2022-06-01` is kept verbatim on
an entry labelled "Dropped". -/
theorem c6_witness :
    processEntry "2020-01-01" ⟨2023, 1, 1⟩
      ⟨some (some "2021-01-01"), some (some "T", none), some (some "Dropped"),
        some (some "2022-06-01")⟩
      = .ok (some ⟨resolveTitle (some "T", none), "2021-01-01",
          .rawText (some "2022-06-01"),
          resolveLabel ⟨some (some "2021-01-01"), some (some "T", none),
            some (some "Dropped"), some (some "2022-06-01")⟩⟩) :=
  (c6_finished_resolution "2020-01-01" ⟨2020, 1, 1⟩ ⟨2023, 1, 1⟩
      ⟨some (some "2021-01-01"), some (some "T", none), some (some "Dropped"),
        some (some "2022-06-01")⟩
      "2021-01-01" ⟨2021, 1, 1⟩ (some "T", none)
      rfl (by decide) (by decide) (by decide) rfl).1
    (some "2022-06-01") rfl

/-- Concrete entry whose `<label>` element is present without a `label`
attribute. -/
def c7Entry : VNEntry :=
  ⟨some (some "2021-01-01"), some (some "T", none), some none, some (some "2021-02-01")⟩

/-- Concrete entry carrying a `label="Playing"` attribute. -/
def c7AttrEntry : VNEntry :=
  ⟨some (some "2021-01-01"), some (some "T", none), some (some "Playing"),
    some (some "2021-02-01")⟩

/-- Record emitted by the extractor for `c7AttrEntry`. -/
def c7AttrRecord : SpanRecord :=
  ⟨some "T", "2021-01-01", .rawText (some "2021-02-01"), some "Playing"⟩

/-- C7, counterexample: an entry whose `<label>` element is present but
lacks the `label` attribute is emitted with a null label, not with
"Finished" — `.get('label')` returns `None` without raising, so the
`except` fallback never runs. -/
theorem c7_counterexample :
    extract_vn_info "2020-01-01" ⟨2021, 8, 1⟩ [c7Entry]
      = .ok [⟨some "T", "2021-01-01", .rawText (some "2021-02-01"), none⟩] := by decide

/-- C7, amended: whenever a record is emitted its label is the resolved
label: "Finished" when the `<label>` element is absent, the attribute's
value when present, and null when the element is present without the
attribute. -/
theorem c7_amended (timeRange : String) (cd today : Date) (e : VNEntry)
    (s : String) (sd : Date) (tp : Option String × Option String)
    (hs : e.started = some (some s)) (hps : parseDate s = some sd)
    (hct : parseDate timeRange = some cd) (hgate : dateLT sd cd = false)
    (ht : e.title = some tp) (r : SpanRecord)
    (hr : processEntry timeRange today e = .ok (some r)) :
    r.label = resolveLabel e ∧
    (e.label = none → r.label = some "Finished") ∧
    (∀ v, e.label = some (some v) → r.label = some v) ∧
    (e.label = some none → r.label = none) := by
  have hlab : r.label = resolveLabel e := by
    simp only [processEntry, hs, hps, hct, hgate, Bool.false_eq_true, if_false, ht] at hr
    cases hfin : e.finished with
    | some ftxt =>
      rw [hfin] at hr
      simp only [Except.ok.injEq, Option.some.injEq] at hr
      rw [← hr]
    | none =>
      rw [hfin] at hr
      by_cases hst : resolveLabel e = some "Stalled"
      · rw [if_pos hst] at hr
        by_cases hdd : (toDays today : ℤ) - (toDays sd : ℤ) + 1 ≤ 0
        · rw [if_pos hdd] at hr
          exact Except.noConfusion hr
        · rw [if_neg hdd] at hr
          simp only [Except.ok.injEq, Option.some.injEq] at hr
          rw [← hr]
      · rw [if_neg hst] at hr
        simp only [Except.ok.injEq, Option.some.injEq] at hr
        rw [← hr]
  refine ⟨hlab, ?_, ?_, ?_⟩
  · intro h; simp only [hlab, resolveLabel, h]
  · intro v h; simp only [hlab, resolveLabel, h]
  · intro h; simp only [hlab, resolveLabel, h]

/-- C7, witness: the amended statement at a concrete entry carrying
`label="Playing"`. -/
theorem c7_amended_witness :
    c7AttrRecord.label = resolveLabel c7AttrEntry ∧
    (c7AttrEntry.label = none → c7AttrRecord.label = some "Finished") ∧
    (∀ v, c7AttrEntry.label = some (some v) → c7AttrRecord.label = some v) ∧
    (c7AttrEntry.label = some none → c7AttrRecord.label = none) :=
  c7_amended "2020-01-01" ⟨2020, 1, 1⟩ ⟨2021, 8, 1⟩ c7AttrEntry "2021-01-01"
    ⟨2021, 1, 1⟩ (some "T", none) rfl (by decide) (by decide) (by decide) rfl
    c7AttrRecord (by decide)

/-- C8: an entry with neither an original-title attribute nor primary
title text is not rejected and not skipped — the extractor silently
emits a record whose title is null, against the claimed validation. -/
theorem c8_code_bug :
    extract_vn_info "2020-01-01" ⟨2021, 8, 1⟩
      [⟨some (some "2021-03-04"), some (none, none), some (some "Playing"),
        some (some "2021-05-06")⟩]
      = .ok [⟨none, "2021-03-04", .rawText (some "2021-05-06"), some "Playing"⟩] := by
  decide

/-- C9, counterexample: two matching candidates with distinct owners but
both stamped `19700101000000` make `select` fail with the
no-matching-file error (checked first), not with the multiple-owners
error. -/
theorem c9_counterexample :
    process_files ["vndb-list-export-A-19700101000000.xml",
      "vndb-list-export-B-19700101000000.xml"] = .error "没有找到匹配的xml文件" ∧
    process_files ["vndb-list-export-A-19700101000000.xml",
      "vndb-list-export-B-19700101000000.xml"] ≠ .error "存在多个用户" := by decide

/-- C9, amended: with two or more distinct owners among matching
candidates `select` never returns a file; it fails with the
multiple-owners error whenever at least one candidate is stamped
strictly after 1970-01-01 00:00:00 (otherwise the no-matching-file
check fires first). -/
theorem c9_amended :
    ∀ fl : List String,
      (∀ f ∈ fl, endsWithXml f = true ∧
        extract_info_from_filename f = .ok (fileOwner f, fileTime f)) →
      ∀ f1 ∈ fl, ∀ f2 ∈ fl, fileOwner f1 ≠ fileOwner f2 →
      (∀ g, process_files fl ≠ .ok g) ∧
      ((∃ f ∈ fl, 19700101000000 < fileTime f) →
        process_files fl = .error "存在多个用户") := by
  intro fl hall f1 hf1 f2 hf2 hdiff
  have husers2 : 1 < (loopUsers fl []).length := by
    refine one_lt_length_of_mem_ne (x := fileOwner f1) (y := fileOwner f2) ?_ ?_ hdiff
    · exact (mem_loopUsers fl [] _).mpr (Or.inr ⟨f1, hf1, rfl⟩)
    · exact (mem_loopUsers fl [] _).mpr (Or.inr ⟨f2, hf2, rfl⟩)
  constructor
  · intro g hg
    cases hlat : (loopLatest fl none 19700101000000).1 with
    | none =>
      rw [process_files_none fl hall hlat] at hg
      exact Except.noConfusion hg
    | some f =>
      rw [process_files_some fl hall f hlat, if_pos husers2] at hg
      exact Except.noConfusion hg
  · intro hepoch
    obtain ⟨g, hgmem, hlat1, hmax⟩ := loopLatest_max fl hepoch
    rw [process_files_some fl hall g hlat1, if_pos husers2]

/-- C9, witness: the amended statement at a concrete two-owner listing. -/
theorem c9_amended_witness :
    process_files ["vndb-list-export-A-20230101000000.xml",
      "vndb-list-export-B-20240101000000.xml"] = .error "存在多个用户" :=
  (c9_amended ["vndb-list-export-A-20230101000000.xml",
      "vndb-list-export-B-20240101000000.xml"] (by decide)
    "vndb-list-export-A-20230101000000.xml" (by decide)
    "vndb-list-export-B-20240101000000.xml" (by decide) (by decide)).2 (by decide)

/-- C10, counterexample: two distinct matching candidates of one owner
share the maximal timestamp `19700101000000`; because that equals the
loop's initial value under a strict comparison, `select` raises the
no-matching-file error instead of returning the first of the two. -/
theorem c10_counterexample :
    endsWithXml "vndb-list-export-A-19700101000000.xml" = true ∧
    endsWithXml "vndb-list-export-A-19700101000000.xml.xml" = true ∧
    extract_info_from_filename "vndb-list-export-A-19700101000000.xml"
      = .ok ("A", 19700101000000) ∧
    extract_info_from_filename "vndb-list-export-A-19700101000000.xml.xml"
      = .ok ("A", 19700101000000) ∧
    process_files ["vndb-list-export-A-19700101000000.xml",
      "vndb-list-export-A-19700101000000.xml.xml"]
      = .error "没有找到匹配的xml文件" := by decide

/-- C10, amended: on a single-owner listing whose maximal timestamp is
attained first by `g1` (every file listed before it has a different,
hence smaller, timestamp) and lies strictly after 1970-01-01 00:00:00,
`select` returns `g1` even when a later file `g2` carries an equal
timestamp: the strict comparison never lets an equal timestamp replace
an earlier selection. -/
theorem c10_amended :
    ∀ (l1 : List String) (g1 : String) (l2 : List String) (g2 : String) (l3 : List String),
      (∀ f ∈ l1 ++ g1 :: (l2 ++ g2 :: l3), endsWithXml f = true ∧
        extract_info_from_filename f = .ok (fileOwner f, fileTime f)) →
      (∀ f ∈ l1 ++ g1 :: (l2 ++ g2 :: l3), ∀ g ∈ l1 ++ g1 :: (l2 ++ g2 :: l3),
        fileOwner f = fileOwner g) →
      fileTime g2 = fileTime g1 →
      (∀ f ∈ l1 ++ g1 :: (l2 ++ g2 :: l3), fileTime f ≤ fileTime g1) →
      (∀ f ∈ l1, fileTime f ≠ fileTime g1) →
      19700101000000 < fileTime g1 →
      process_files (l1 ++ g1 :: (l2 ++ g2 :: l3)) = .ok g1 := by
  intro l1 g1 l2 g2 l3 hall hone htie hmax hfirst hepoch
  have hg1mem : g1 ∈ l1 ++ g1 :: (l2 ++ g2 :: l3) := by simp
  have hlat := (loopLatest_spec (l1 ++ g1 :: (l2 ++ g2 :: l3)) none 19700101000000).2
    (fileTime g1) hmax hepoch ⟨g1, hg1mem, rfl⟩
  have hfind : List.find? (fun f => fileTime f == fileTime g1)
      (l1 ++ g1 :: (l2 ++ g2 :: l3)) = some g1 := by
    rw [List.find?_append]
    have h1 : List.find? (fun f => fileTime f == fileTime g1) l1 = none := by
      rw [List.find?_eq_none]
      intro x hx
      simpa using hfirst x hx
    rw [h1, List.find?_cons_of_pos _ (by simp)]
    rfl
  have hlat1 : (loopLatest (l1 ++ g1 :: (l2 ++ g2 :: l3)) none 19700101000000).1
      = some g1 := by
    rw [hlat]
    exact hfind
  rw [process_files_some _ hall g1 hlat1,
    if_neg (by have := loopUsers_le_one _ hone g1 hg1mem; omega)]

/-- C10, witness: the amended statement at a concrete epoch-free tie. -/
theorem c10_amended_witness :
    process_files ["vndb-list-export-A-20240101000000.xml",
      "vndb-list-export-A-20240101000000.xml.xml"]
      = .ok "vndb-list-export-A-20240101000000.xml" :=
  c10_amended [] "vndb-list-export-A-20240101000000.xml" []
    "vndb-list-export-A-20240101000000.xml.xml" []
    (by decide) (by decide) (by decide) (by decide) (by decide) (by decide)
